import Mathlib

/-!
Verification of the marketplace server's data model and its
subscription / search / review logic, shallowly embedded from the
JavaScript sources (`server.js` revisions, `models/User.js`).
Timestamps are modelled as natural numbers of milliseconds; the
MongoDB user collection is modelled as a list of `Account` records.
-/

namespace LocalService

/-- One entry of an account's `reviews` array
(schema in the second revision of `server.js`). -/
structure Review where
  visitorName : String
  rating : Int
  comment : String
  date : Nat
deriving Repr, DecidableEq

/-- The single Account entity (union of the fields of the
`User` / `Provider` schemas across the revisions). -/
structure Account where
  id : Nat
  email : String
  password : String
  role : String
  name : String
  category : String
  contactInfo : String
  description : String
  profilePictureUrl : String
  isSubscribed : Bool
  trialStartDate : Nat
  reviews : List Review
deriving Repr, DecidableEq

/-- `User.findById` over the collection. -/
def findById (store : List Account) (uid : Nat) : Option Account :=
  store.find? (fun a => a.id == uid)

/-- `User.findOne({ email })` over the collection. -/
def findByEmail (store : List Account) (email : String) : Option Account :=
  store.find? (fun a => a.email == email)

/-- `User.findByIdAndUpdate`: rewrite the record(s) whose `_id` matches
(ids are unique in MongoDB, so mapping over the whole list is faithful). -/
def updateById (store : List Account) (uid : Nat) (f : Account → Account) : List Account :=
  store.map (fun a => if a.id = uid then f a else a)

/-! ### Trial/Subscription policy (GET /provider/profile, part_000 lines 183-191) -/

/-- `const ONE_WEEK_MS = 7 * 24 * 60 * 60 * 1000`. -/
def ONE_WEEK_MS : Nat := 7 * 24 * 60 * 60 * 1000

/-- The divisor `1000 * 60 * 60 * 24` used for the day count. -/
def DAY_MS : Nat := 1000 * 60 * 60 * 24

/-- `trialEndDate = new Date(provider.trialStartDate.getTime() + ONE_WEEK_MS)`. -/
def trialEndDate (a : Account) : Nat := a.trialStartDate + ONE_WEEK_MS

/-- `const isTrialActive = !provider.isSubscribed && now < trialEndDate`. -/
def isTrialActive (a : Account) (now : Nat) : Bool :=
  !a.isSubscribed && decide (now < trialEndDate a)

/-- `daysLeft = isTrialActive ? Math.ceil((trialEndDate - now) / DAY_MS) : 0`
(`Math.ceil` of the exact division, which the doubles involved compute exactly
at these magnitudes). -/
def daysLeft (a : Account) (now : Nat) : Int :=
  if isTrialActive a now
  then ⌈((trialEndDate a : ℚ) - (now : ℚ)) / (DAY_MS : ℚ)⌉
  else 0

/-- Ceiling of a natural division, as nat arithmetic versus the rational ceiling. -/
theorem natCeilDiv_cast (k d : Nat) (hd : 0 < d) :
    (((k + (d - 1)) / d : Nat) : Int) = ⌈(k : ℚ) / (d : ℚ)⌉ := by
  have hd' : (0 : ℚ) < (d : ℚ) := by exact_mod_cast hd
  set c : Nat := (k + (d - 1)) / d with hc
  have hdm : d * c + (k + (d - 1)) % d = k + (d - 1) := Nat.div_add_mod _ _
  have hmlt : (k + (d - 1)) % d < d := Nat.mod_lt _ hd
  have hA : k ≤ d * c := by omega
  have hB : d * c < k + d := by omega
  symm
  rw [Int.ceil_eq_iff]
  constructor
  · rw [lt_div_iff hd']
    have hB' : (d : ℚ) * (c : ℚ) < (k : ℚ) + (d : ℚ) := by exact_mod_cast hB
    push_cast
    nlinarith
  · rw [div_le_iff hd']
    have hA' : (k : ℚ) ≤ (d : ℚ) * (c : ℚ) := by exact_mod_cast hA
    push_cast
    nlinarith

/-- C1. `isTrialActive(account, now)` is true iff the account is not subscribed
and `now` is strictly before `trialStartDate + 7 days`; `daysLeft` is the
ceiling of the remaining time in days while the trial is active and `0`
otherwise (given here also in closed natural-number form). -/
theorem trial_policy_correct (a : Account) (now : Nat) :
    (isTrialActive a now = true ↔
      (a.isSubscribed = false ∧ now < a.trialStartDate + 7 * DAY_MS))
    ∧ daysLeft a now =
        ((if isTrialActive a now
          then ((trialEndDate a - now) + (DAY_MS - 1)) / DAY_MS
          else 0 : Nat) : Int) := by
  constructor
  · simp [isTrialActive, trialEndDate, ONE_WEEK_MS, DAY_MS, Bool.and_eq_true,
      Bool.not_eq_true', decide_eq_true_eq]
  · by_cases h : isTrialActive a now = true
    · have hlt : now < trialEndDate a := by
        have hh := h
        simp only [isTrialActive, Bool.and_eq_true, decide_eq_true_eq] at hh
        exact hh.2
      rw [daysLeft, if_pos h, if_pos h]
      have hsub : ((trialEndDate a : ℚ)) - ((now : ℚ))
          = ((trialEndDate a - now : Nat) : ℚ) := by
        push_cast [Nat.cast_sub hlt.le]
        ring
      rw [hsub]
      rw [← natCeilDiv_cast (trialEndDate a - now) DAY_MS (by norm_num [DAY_MS])]
    · rw [daysLeft, if_neg h, if_neg h]
      rfl

/-! ### Case-insensitive substring matching

The handlers test user text with `new RegExp(q, 'i')` (equivalently
`{ $regex: q, $options: 'i' }`); for the plain-text patterns at issue this is
ASCII case-insensitive substring containment, embedded here directly. -/

/-- `s.trim()` on the underlying characters: drop whitespace from both ends. -/
def trimChars (cs : List Char) : List Char :=
  ((cs.dropWhile Char.isWhitespace).reverse.dropWhile Char.isWhitespace).reverse

/-- JS `s.trim()`. -/
def trimJS (s : String) : String := ⟨trimChars s.data⟩

/-- ASCII lower-casing of one character, as JS case folding does for ASCII. -/
def lowerChar (c : Char) : Char :=
  if 65 ≤ c.toNat ∧ c.toNat ≤ 90 then Char.ofNat (c.toNat + 32) else c

/-- Lower-case a string, character-wise. -/
def lowerChars (s : String) : List Char := s.data.map lowerChar

/-- Does `hay` begin with `pat`? -/
def charsStartWith : List Char → List Char → Bool
  | [], _ => true
  | _ :: _, [] => false
  | p :: ps, h :: hs => p == h && charsStartWith ps hs

/-- Does `hay` contain `pat` as a contiguous run? -/
def charsContain (pat : List Char) : List Char → Bool
  | [] => charsStartWith pat []
  | h :: t => charsStartWith pat (h :: t) || charsContain pat t

/-- `new RegExp(q, 'i').test(s)` for a literal pattern `q`. -/
def containsCI (s pat : String) : Bool :=
  charsContain (lowerChars pat) (lowerChars s)

/-- The specification-level reading of a case-insensitive substring match:
the lower-cased pattern occurs contiguously inside the lower-cased text. -/
def ContainsCI (s pat : String) : Prop :=
  ∃ l r, lowerChars s = l ++ lowerChars pat ++ r

theorem charsStartWith_iff (p h : List Char) :
    charsStartWith p h = true ↔ ∃ r, h = p ++ r := by
  induction p generalizing h with
  | nil => simp [charsStartWith]
  | cons x xs ih =>
    cases h with
    | nil => simp [charsStartWith]
    | cons y ys =>
      simp only [charsStartWith, Bool.and_eq_true, beq_iff_eq, ih, List.cons_append,
        List.cons.injEq]
      constructor
      · rintro ⟨rfl, r, rfl⟩
        exact ⟨r, rfl, rfl⟩
      · rintro ⟨r, rfl, rfl⟩
        exact ⟨rfl, r, rfl⟩

theorem charsContain_iff (p h : List Char) :
    charsContain p h = true ↔ ∃ l r, h = l ++ p ++ r := by
  induction h with
  | nil =>
    simp only [charsContain, charsStartWith_iff]
    constructor
    · rintro ⟨r, hr⟩
      exact ⟨[], r, by simpa using hr⟩
    · rintro ⟨l, r, hr⟩
      rcases List.append_eq_nil.mp (List.append_eq_nil.mp hr.symm).1 with ⟨rfl, rfl⟩
      exact ⟨r, by simpa using hr⟩
  | cons y ys ih =>
    simp only [charsContain, Bool.or_eq_true, charsStartWith_iff, ih]
    constructor
    · rintro (⟨r, hr⟩ | ⟨l, r, hr⟩)
      · exact ⟨[], r, by simpa using hr⟩
      · exact ⟨y :: l, r, by simp [hr]⟩
    · rintro ⟨l, r, hr⟩
      cases l with
      | nil =>
        left
        exact ⟨r, by simpa using hr⟩
      | cons z l =>
        right
        simp only [List.cons_append, List.cons.injEq] at hr
        exact ⟨l, r, hr.2⟩

theorem containsCI_iff (s pat : String) : containsCI s pat = true ↔ ContainsCI s pat :=
  charsContain_iff (lowerChars pat) (lowerChars s)

/-! ### Search handlers -/

/-- GET /search of part_000 (lines 322-356) and part_001 (lines 187-205):
base filter `{ isSubscribed: true }`, exact category match unless the
sentinel is chosen, free text OR-matched against `name`, `category`,
`contactInfo`. -/
def search (store : List Account) (q category : String) : List Account :=
  store.filter (fun a =>
    a.isSubscribed
    && (category == "" || category == "All Categories" || a.category == category)
    && (q == "" || (containsCI a.name q || containsCI a.category q || containsCI a.contactInfo q)))

/-- GET /search of the first revision of `server.js` (lines 298-315):
no subscription condition at all, text matched against `name` only.
That revision's schema has no `isSubscribed` field, so a record's flag
reads as false. -/
def searchRev1 (store : List Account) (query category : String) : List Account :=
  store.filter (fun a =>
    (query == "" || containsCI a.name query)
    && (category == "" || category == "All Categories" || a.category == category))

/-- `const baseCategories = ['Driver', 'Plumbing', ...]` of the second
revision of `server.js` (line 408). -/
def baseCategories : List String :=
  ["Driver", "Plumbing", "Electrician", "Gardening", "Cleaning"]

/-- GET / of the second revision of `server.js` (lines 479-500): base filter
`{ role: 'provider' }`, exact category match only when the category is in the
base list, text OR-matched against `name` and `description`.  (The handler
then decorates each hit with rating statistics and sorts by them; the claims
here concern membership, which that pass does not change.) -/
def homeSearch (store : List Account) (category searchText : String) : List Account :=
  store.filter (fun a =>
    a.role == "provider"
    && (!(baseCategories.contains category) || a.category == category)
    && (searchText == "" || (containsCI a.name searchText || containsCI a.description searchText)))

/-! ### Review submission (POST /provider/review/:id, second revision of
`server.js`, lines 675-715) -/

inductive ReviewError where
  | validationError
  | notFound
deriving Repr, DecidableEq

/-- Value of the longest decimal-digit run starting a character list. -/
def digitsVal (cs : List Char) : Nat :=
  cs.foldl (fun n c => 10 * n + (c.toNat - 48)) 0

/-- JS `parseInt(s, 10)`: skip surrounding whitespace, read an optional sign
and then the longest digit run; `none` stands for `NaN` (no digits at all).
Trailing non-digits are ignored, as `parseInt` does. -/
def parseIntJS (s : String) : Option Int :=
  let cs := trimChars s.data
  let signAndRest : Int × List Char :=
    match cs with
    | '-' :: r => (-1, r)
    | '+' :: r => (1, r)
    | r => (1, r)
  let digs := signAndRest.2.takeWhile Char.isDigit
  if digs.isEmpty then none else some (signAndRest.1 * (digitsVal digs : Int))

/-- `let ratingValue = parseInt(rating, 10) || 0; if (ratingValue > 5) ratingValue = 5;`
(`NaN || 0` is `0`, and `0 || 0` is `0`, so `getD 0` captures the `|| 0`). -/
def ratingValueOf (rating : String) : Int :=
  let v := (parseIntJS rating).getD 0
  if v > 5 then 5 else v

/-- The review/inquiry handler: reject a blank name or comment before any
store access, 404 unless the id resolves to a provider, otherwise push
`{visitorName, rating: ratingValue, comment, date}` onto the target's
reviews.  The pair returns the (possibly updated) collection next to the
error outcome, so "no mutation" is literal. -/
def submitReview (store : List Account) (pid : Nat)
    (visitorName rating comment : String) (now : Nat) :
    List Account × Option ReviewError :=
  let ratingValue := ratingValueOf rating
  if visitorName = "" ∨ comment = "" ∨ trimJS visitorName = "" ∨ trimJS comment = "" then
    (store, some ReviewError.validationError)
  else
    match findById store pid with
    | none => (store, some ReviewError.notFound)
    | some p =>
      if p.role ≠ "provider" then (store, some ReviewError.notFound)
      else
        (updateById store pid (fun a =>
          { a with reviews := a.reviews ++ [⟨visitorName, ratingValue, comment, now⟩] }), none)

/-! ### Rating summary (second revision of `server.js`, lines 656-659,
repeated at lines 502-511 and 771-774) -/

/-- `r => r.rating >= 1 && r.rating <= 5`. -/
def ratingQualifies (r : Review) : Bool :=
  decide (1 ≤ r.rating) && decide (r.rating ≤ 5)

/-- `const ratings = provider.reviews.filter(r => r.rating >= 1 && r.rating <= 5)`. -/
def ratingsOf (a : Account) : List Review :=
  a.reviews.filter ratingQualifies

/-- `const totalRating = ratings.reduce((sum, r) => sum + r.rating, 0)`. -/
def totalRating (a : Account) : Int :=
  (ratingsOf a).foldl (fun sum r => sum + r.rating) 0

/-- `const reviewCount = ratings.length`. -/
def reviewCount (a : Account) : Nat :=
  (ratingsOf a).length

/-- `x.toFixed(1)` on the exact quotient: round to one decimal place
(ties at the midpoint round up, as they do for these positive values). -/
def toFixed1 (q : ℚ) : ℚ :=
  ((round (q * 10) : Int) : ℚ) / 10

/-- `ratings.length > 0 ? (totalRating / ratings.length).toFixed(1) : 'N/A'`;
`none` is the sentinel. -/
def averageRating (a : Account) : Option ℚ :=
  if 0 < reviewCount a
  then some (toFixed1 ((totalRating a : ℚ) / (reviewCount a : ℚ)))
  else none

/-! ### Registration (part_000 lines 82-127; the duplicate-email failure is
the unique index on `email`, surfaced by the first revision's `findOne`
check at lines 111-115 and the second revision's error code 11000) -/

inductive RegisterError where
  | missingCategory
  | duplicateKey
deriving Repr, DecidableEq

/-- `newCategory.trim().charAt(0).toUpperCase() + newCategory.trim().slice(1).toLowerCase()`
(ASCII case mapping). -/
def capitalizeJS (s : String) : String :=
  match s.data with
  | [] => ""
  | c :: cs => ⟨(if 97 ≤ c.toNat ∧ c.toNat ≤ 122 then Char.ofNat (c.toNat - 32) else c)
      :: cs.map lowerChar⟩

/-- The category-or-other resolution shared by registration and profile edit:
`none` when "other" was chosen but no new category given. -/
def finalCategoryOf (category newCategory : String) : Option String :=
  if category = "other" then
    (if trimJS newCategory ≠ "" then some (capitalizeJS (trimJS newCategory)) else none)
  else some category

/-- `const defaultProfilePic = ...` (part_000 line 68). -/
def defaultProfilePic : String :=
  "https://placehold.co/100x100/1a1a40/ffffff?text=P+P"

/-- POST /register: resolve the category, fail on a duplicate email
(the unique index rejects the insert atomically, so nothing persists),
otherwise append a fresh provider record with `isSubscribed: false` and
`trialStartDate: new Date()`. -/
def register (store : List Account) (id : Nat)
    (email password name category contactInfo newCategory description profilePictureUrl : String)
    (now : Nat) : List Account × Option RegisterError :=
  match finalCategoryOf category newCategory with
  | none => (store, some RegisterError.missingCategory)
  | some fc =>
    if (findByEmail store email).isSome then (store, some RegisterError.duplicateKey)
    else
      (store ++ [{ id := id, email := email, password := password, role := "provider",
                   name := name, category := fc, contactInfo := contactInfo,
                   description := if description = "" then "A committed service provider."
                     else description,
                   profilePictureUrl := if profilePictureUrl = "" then defaultProfilePic
                     else profilePictureUrl,
                   isSubscribed := false, trialStartDate := now, reviews := [] }], none)

/-! ### Profile edit and subscription activation (part_000 lines 229-263
and 282-295) -/

inductive EditError where
  | missingCategory
deriving Repr, DecidableEq

/-- POST /provider/edit: resolve the category, then
`findByIdAndUpdate(userId, { name, category, contactInfo, description, profilePictureUrl })`
with the same `||`-defaults as registration (the picture is trimmed here). -/
def editProfile (store : List Account) (uid : Nat)
    (name category contactInfo newCategory description profilePictureUrl : String) :
    List Account × Option EditError :=
  match finalCategoryOf category newCategory with
  | none => (store, some EditError.missingCategory)
  | some fc =>
    (updateById store uid (fun a =>
      { a with name := name, category := fc, contactInfo := contactInfo,
               description := if description = "" then "A committed service provider."
                 else description,
               profilePictureUrl := if trimJS profilePictureUrl = "" then defaultProfilePic
                 else trimJS profilePictureUrl }), none)

/-- POST /subscribe/activate:
`User.findByIdAndUpdate(req.session.userId, { isSubscribed: true })`;
there is no error path and no other field is touched. -/
def activateSubscription (store : List Account) (uid : Nat) : List Account :=
  updateById store uid (fun a => { a with isSubscribed := true })

/-! ### Distinct categories (part_000 GET /search, lines 341-353) -/

/-- `const baseCategories = ['Driver', 'Plumber', ...]` (part_000 line 65). -/
def baseCategoriesP0 : List String :=
  ["Driver", "Plumber", "Electrician", "Carpenter", "Painter", "Mechanic"]

/-- Lexicographic comparison of characters by code point, the order JS's
default `Array.sort` applies to these strings. -/
def charsLe : List Char → List Char → Bool
  | [], _ => true
  | _ :: _, [] => false
  | a :: as, b :: bs =>
    if a.toNat < b.toNat then true
    else if b.toNat < a.toNat then false
    else charsLe as bs

/-- String comparison for `.sort()`. -/
def strLe (s t : String) : Bool := charsLe s.data t.data

/-- `strLe` as a relation. -/
abbrev strLeProp (s t : String) : Prop := strLe s t = true

instance : DecidableRel strLeProp := fun s t => instDecidableEqBool (strLe s t) true

/-- `User.distinct('category', { isSubscribed: true })`: the distinct
category values of the subscribed records. -/
def distinctSubscribedCategories (store : List Account) : List String :=
  ((store.filter (fun a => a.isSubscribed)).map Account.category).dedup

/-- The category list for the filter UI: a `Set` of the base list and the
distinct stored values, the non-blank ones sorted ascending, with the
sentinel unshifted onto the front.  (`List.dedup` keeps a different
duplicate than a JS `Set`, which is immaterial after sorting.) -/
def distinctCategories (store : List Account) : List String :=
  let dynamicCategories := distinctSubscribedCategories store
  let categoriesList := (baseCategoriesP0 ++ dynamicCategories).dedup
  let uniqueCategories :=
    List.insertionSort strLeProp
      (categoriesList.filter (fun c => !(c == "") && !(trimJS c == "")))
  "All Categories" :: uniqueCategories

/-! ### Concrete records used to instantiate the theorems -/

/-- A subscribed provider whose reviews are the inquiry/4/2 example. -/
def johnAcct : Account :=
  { id := 1, email := "p@x.com", password := "h", role := "provider", name := "John Doe",
    category := "Plumbing", contactInfo := "0712", description := "Trusted plumber",
    profilePictureUrl := "", isSubscribed := true, trialStartDate := 0,
    reviews := [⟨"a", 0, "ask", 0⟩, ⟨"b", 4, "good", 0⟩, ⟨"c", 2, "meh", 0⟩] }

/-- An unsubscribed provider with a category of its own. -/
def zebraAcct : Account :=
  { id := 9, email := "z@x.com", password := "h", role := "provider", name := "Zeb",
    category := "Zebra", contactInfo := "07", description := "", profilePictureUrl := "",
    isSubscribed := false, trialStartDate := 0, reviews := [] }

/-- A subscribed provider matching a search only through its description. -/
def descAcct : Account :=
  { id := 3, email := "d@x.com", password := "h", role := "provider", name := "Bob",
    category := "Cleaning", contactInfo := "0799", description := "Ask for John",
    profilePictureUrl := "", isSubscribed := true, trialStartDate := 0, reviews := [] }

/-! ### Lemmas shared by the claim theorems -/

theorem foldl_add_rating (l : List Review) (i : Int) :
    l.foldl (fun sum r => sum + r.rating) i = i + (l.map Review.rating).sum := by
  induction l generalizing i with
  | nil => simp
  | cons r t ih => simp [ih, add_assoc]

theorem updateById_map_eq {β : Type} (store : List Account) (uid : Nat)
    (f : Account → Account) (g : Account → β) (h : ∀ a, g (f a) = g a) :
    (updateById store uid f).map g = store.map g := by
  induction store with
  | nil => rfl
  | cons a t ih =>
    simp only [updateById, List.map_cons] at *
    rw [ih]
    by_cases hc : a.id = uid
    · rw [if_pos hc, h]
    · rw [if_neg hc]

theorem findById_updateById (store : List Account) (uid : Nat)
    (f : Account → Account) (hf : ∀ a, (f a).id = a.id) :
    findById (updateById store uid f) uid = (findById store uid).map f := by
  induction store with
  | nil => rfl
  | cons b t ih =>
    simp only [findById, updateById, List.map_cons, List.find?_cons] at *
    by_cases hb : b.id = uid
    · rw [if_pos hb]
      have h1 : ((f b).id == uid) = true := by simp [hf, hb]
      have h2 : (b.id == uid) = true := by simp [hb]
      rw [h1, h2]
      rfl
    · rw [if_neg hb]
      have h2 : (b.id == uid) = false := by simp [hb]
      rw [h2]
      exact ih

theorem charsLe_total (a b : List Char) : charsLe a b = true ∨ charsLe b a = true := by
  induction a generalizing b with
  | nil => exact Or.inl rfl
  | cons x xs ih =>
    cases b with
    | nil => exact Or.inr rfl
    | cons y ys =>
      simp only [charsLe]
      rcases Nat.lt_trichotomy x.toNat y.toNat with h | h | h
      · left
        rw [if_pos h]
      · rcases ih ys with h2 | h2
        · left
          rw [if_neg (by omega), if_neg (by omega)]
          exact h2
        · right
          rw [if_neg (by omega), if_neg (by omega)]
          exact h2
      · right
        rw [if_pos h]

theorem charsLe_trans {a b c : List Char}
    (hab : charsLe a b = true) (hbc : charsLe b c = true) : charsLe a c = true := by
  induction a generalizing b c with
  | nil => rfl
  | cons x xs ih =>
    cases b with
    | nil => simp [charsLe] at hab
    | cons y ys =>
      cases c with
      | nil => simp [charsLe] at hbc
      | cons z zs =>
        simp only [charsLe] at hab hbc ⊢
        split_ifs at hab hbc ⊢ <;>
          first
            | rfl
            | omega
            | exact ih hab hbc
            | simp at hab
            | simp at hbc

instance : IsTrans String strLeProp :=
  ⟨fun _ _ _ hab hbc => charsLe_trans hab hbc⟩

instance : IsTotal String strLeProp :=
  ⟨fun s t => charsLe_total s.data t.data⟩

/-! ### The claims -/

/-- C2, counterexample. The first-revision /search handler applies no
subscription filter: a store holding one unsubscribed account yields that
account for a plain category search, refuting "every account in the
sequence returned by search has isSubscribed = true" for that handler. -/
theorem searchRev1_returns_unsubscribed :
    zebraAcct.isSubscribed = false
    ∧ searchRev1 [zebraAcct] "" "Zebra" = [zebraAcct] := by decide

/-- C2, amended. The part_000/part_001 /search handler (whose query object
includes `isSubscribed: true`) only ever returns subscribed accounts. -/
theorem search_requires_subscription (store : List Account) (q category : String)
    (a : Account) (h : a ∈ search store q category) : a.isSubscribed = true := by
  unfold search at h
  rw [List.mem_filter] at h
  have hb := h.2
  simp only [Bool.and_eq_true] at hb
  exact hb.1.1

/-- C2, witness for the amended theorem at a concrete store and query. -/
theorem search_requires_subscription_witness :
    johnAcct ∈ search [johnAcct] "John" "" ∧ johnAcct.isSubscribed = true :=
  ⟨by decide, search_requires_subscription [johnAcct] "John" "" johnAcct (by decide)⟩

/-- C3. A review whose visitor name or comment is blank after trimming is
rejected with a validation error and the collection is returned unchanged. -/
theorem submitReview_blank_no_mutation (store : List Account) (pid : Nat)
    (visitorName rating comment : String) (now : Nat)
    (h : trimJS visitorName = "" ∨ trimJS comment = "") :
    submitReview store pid visitorName rating comment now
      = (store, some ReviewError.validationError) := by
  rcases h with h | h <;> simp [submitReview, h]

/-- C3, witness at a whitespace-only visitor name. -/
theorem submitReview_blank_no_mutation_witness :
    submitReview [johnAcct] 1 " " "4" "great" 0
      = ([johnAcct], some ReviewError.validationError) :=
  submitReview_blank_no_mutation [johnAcct] 1 " " "4" "great" 0 (Or.inl (by decide))

/-- C4. The handler clamps 7 to 5 and coerces "abc" to 0 as claimed, but a
negative rating is kept as is: submitting rating "-3" succeeds and stores a
review with rating -3, violating the claimed [0, 5] invariant. -/
theorem submitReview_keeps_negative_rating :
    ratingValueOf "7" = 5 ∧ ratingValueOf "abc" = 0 ∧ ratingValueOf "-3" = -3
    ∧ (submitReview [johnAcct] 1 "Mallory" "-3" "awful" 0).2 = none
    ∧ (submitReview [johnAcct] 1 "Mallory" "-3" "awful" 0).1.map
        (fun a => a.reviews.map Review.rating) = [[0, 4, 2, -3]] := by decide

/-- C5. The rating summary counts exactly the reviews with rating in [1, 5]
and averages them (mean rounded to one decimal place), with the sentinel
when none qualifies; over ratings 0, 4, 2 it gives average 3.0 and count 2. -/
theorem ratingSummary_correct :
    (∀ a : Account,
      reviewCount a = a.reviews.countP ratingQualifies
      ∧ averageRating a =
          (if reviewCount a = 0 then none
           else some
             (((round ((((a.reviews.filter ratingQualifies).map Review.rating).sum : ℚ)
                 / (reviewCount a : ℚ) * 10) : Int) : ℚ) / 10)))
    ∧ averageRating johnAcct = some 3 ∧ reviewCount johnAcct = 2 := by
  refine ⟨fun a => ⟨?_, ?_⟩, ?_, by decide⟩
  · simp [reviewCount, ratingsOf, List.countP_eq_length_filter]
  · by_cases h : reviewCount a = 0
    · rw [averageRating, if_neg (by omega), if_pos h]
    · rw [averageRating, if_pos (Nat.pos_of_ne_zero h), if_neg h]
      unfold toFixed1 totalRating
      rw [foldl_add_rating]
      simp [ratingsOf]
  · norm_num [averageRating, toFixed1, reviewCount, ratingsOf, totalRating,
      ratingQualifies, johnAcct]

/-- C6. Registering with an email that already belongs to a stored account
fails with the duplicate-key error and leaves the collection untouched, so
the first account is unaffected and nothing is partially persisted. -/
theorem register_duplicate_email (store : List Account) (id : Nat)
    (email password name category contactInfo newCategory description profilePictureUrl : String)
    (now : Nat) (a : Account)
    (hcat : finalCategoryOf category newCategory ≠ none)
    (hdup : findByEmail store email = some a) :
    register store id email password name category contactInfo newCategory description
      profilePictureUrl now = (store, some RegisterError.duplicateKey) := by
  cases hfc : finalCategoryOf category newCategory with
  | none => exact absurd hfc hcat
  | some fc => simp [register, hfc, hdup]

/-- C6, witness: a second registration under the first record's email. -/
theorem register_duplicate_email_witness :
    register [johnAcct] 2 "p@x.com" "pw" "Eve" "Cleaning" "07" "" "" "" 5
      = ([johnAcct], some RegisterError.duplicateKey) :=
  register_duplicate_email [johnAcct] 2 "p@x.com" "pw" "Eve" "Cleaning" "07" "" "" "" 5
    johnAcct (by decide) (by decide)

/-- C7. Activating a subscription twice equals activating it once, and for a
resolving account id the activated record is the old record with
`isSubscribed := true` and nothing else changed; no error path exists. -/
theorem activateSubscription_idempotent (store : List Account) (uid : Nat) :
    activateSubscription (activateSubscription store uid) uid
      = activateSubscription store uid
    ∧ ∀ a, findById store uid = some a →
        findById (activateSubscription store uid) uid
          = some { a with isSubscribed := true } := by
  constructor
  · unfold activateSubscription updateById
    rw [List.map_map]
    congr 1
    funext a
    by_cases h : a.id = uid
    · simp [Function.comp, h]
    · simp [Function.comp, h]
  · intro a ha
    unfold activateSubscription
    rw [findById_updateById store uid (fun a => { a with isSubscribed := true })
      (fun a => rfl), ha]
    rfl

/-- C7, witness at a one-account store. -/
theorem activateSubscription_idempotent_witness :
    findById (activateSubscription [zebraAcct] 9) 9
      = some { zebraAcct with isSubscribed := true } :=
  (activateSubscription_idempotent [zebraAcct] 9).2 zebraAcct (by decide)

/-- C8, counterexample. The /search handler matches text against name,
category and contactInfo but not description: a subscribed account whose
description alone contains the text is not returned, refuting the claimed
name-or-description OR contract for that handler. -/
theorem search_ignores_description :
    ContainsCI descAcct.description "John"
    ∧ descAcct.isSubscribed = true
    ∧ search [descAcct] "John" "" = [] :=
  ⟨(containsCI_iff _ _).mp (by decide), by decide, by decide⟩

/-- C8, amended. The /search handler OR-matches the text case-insensitively
against name, category and contactInfo (AND-ed with an exact category match
unless the sentinel is chosen), while the second revision's home handler
OR-matches name and description and AND-s the category only when it belongs
to the fixed base list; a text "John" matches name "John Doe" in both. -/
theorem search_text_match_semantics :
    (∀ (store : List Account) (q category : String) (a : Account),
        a ∈ search store q category ↔
          a ∈ store ∧ a.isSubscribed = true
          ∧ (category = "" ∨ category = "All Categories" ∨ a.category = category)
          ∧ (q = "" ∨ ContainsCI a.name q ∨ ContainsCI a.category q
              ∨ ContainsCI a.contactInfo q))
    ∧ (∀ (store : List Account) (category searchText : String) (a : Account),
        a ∈ homeSearch store category searchText ↔
          a ∈ store ∧ a.role = "provider"
          ∧ (category ∉ baseCategories ∨ a.category = category)
          ∧ (searchText = "" ∨ ContainsCI a.name searchText
              ∨ ContainsCI a.description searchText))
    ∧ johnAcct ∈ search [johnAcct] "John" ""
    ∧ johnAcct ∈ homeSearch [johnAcct] "" "john" := by
  refine ⟨?_, ?_, by decide, by decide⟩
  · intro store q category a
    simp only [search, List.mem_filter, Bool.and_eq_true, Bool.or_eq_true, beq_iff_eq,
      containsCI_iff]
    tauto
  · intro store category searchText a
    simp only [homeSearch, List.mem_filter, Bool.and_eq_true, Bool.or_eq_true,
      Bool.not_eq_true', beq_iff_eq, containsCI_iff]
    have hcont : (baseCategories.contains category = false) ↔ category ∉ baseCategories := by
      rw [Bool.eq_false_iff]
      exact not_congr List.elem_iff
    rw [hcont]
    tauto

/-- C9, counterexample. The distinct-category list is drawn from subscribed
accounts only: an unsubscribed provider's non-blank category "Zebra" is
absent, refuting "every non-empty distinct category value present among
provider accounts" as stated. -/
theorem distinctCategories_misses_provider_category :
    zebraAcct.role = "provider" ∧ zebraAcct.category = "Zebra"
    ∧ trimJS "Zebra" ≠ "" ∧ "Zebra" ∉ distinctCategories [zebraAcct] := by decide

/-- C9, amended. The category list is the sentinel followed by the
ascending-sorted union of the fixed base list and the distinct categories of
the subscribed accounts, restricted to values non-blank after trimming; the
base entries are present for every store, the empty one included. -/
theorem distinctCategories_spec (store : List Account) :
    (distinctCategories store).head? = some "All Categories"
    ∧ List.Sorted strLeProp ((distinctCategories store).tail)
    ∧ baseCategoriesP0.all (fun c => decide (c ∈ distinctCategories store)) = true
    ∧ ∀ c, c ∈ distinctCategories store ↔
        (c = "All Categories"
         ∨ ((c ∈ baseCategoriesP0
              ∨ c ∈ (store.filter (fun a => a.isSubscribed)).map Account.category)
            ∧ c ≠ "" ∧ trimJS c ≠ "")) := by
  have hmem : ∀ c, c ∈ distinctCategories store ↔
      (c = "All Categories"
       ∨ ((c ∈ baseCategoriesP0
            ∨ c ∈ (store.filter (fun a => a.isSubscribed)).map Account.category)
          ∧ c ≠ "" ∧ trimJS c ≠ "")) := by
    intro c
    simp only [distinctCategories, distinctSubscribedCategories, List.mem_cons,
      List.mem_insertionSort, List.mem_filter, List.mem_dedup, List.mem_append,
      Bool.and_eq_true, Bool.not_eq_true', beq_eq_false_iff_ne]
  refine ⟨rfl, ?_, ?_, hmem⟩
  · exact List.sorted_insertionSort strLeProp _
  · rw [List.all_eq_true]
    intro c hc
    rw [decide_eq_true_eq]
    fin_cases hc <;>
      exact (hmem _).mpr (Or.inr ⟨Or.inl (by decide), by decide, by decide⟩)

/-- C10. `trialStartDate` is stamped with the creation time by registration
and left unchanged by profile edit (which also preserves id, email,
password, role, subscription flag and reviews), by subscription activation
and by review submission. -/
theorem trialStartDate_immutable (store : List Account) (uid pid rid reviewNow registerNow : Nat)
    (name category contactInfo newCategory description profilePictureUrl : String)
    (visitorName rating comment : String)
    (email password rname rcategory rcontactInfo rnewCategory rdescription rpic : String) :
    ((editProfile store uid name category contactInfo newCategory description
        profilePictureUrl).1.map
          (fun a => (a.id, a.email, a.password, a.role, a.isSubscribed,
            a.trialStartDate, a.reviews))
      = store.map (fun a => (a.id, a.email, a.password, a.role, a.isSubscribed,
            a.trialStartDate, a.reviews)))
    ∧ ((activateSubscription store uid).map Account.trialStartDate
        = store.map Account.trialStartDate)
    ∧ ((submitReview store pid visitorName rating comment reviewNow).1.map
          Account.trialStartDate
        = store.map Account.trialStartDate)
    ∧ ((register store rid email password rname rcategory rcontactInfo rnewCategory
          rdescription rpic registerNow).1.map Account.trialStartDate
        = store.map Account.trialStartDate
          ++ (if (finalCategoryOf rcategory rnewCategory).isSome
                ∧ findByEmail store email = none
              then [registerNow] else [])) := by
  refine ⟨?_, ?_, ?_, ?_⟩
  · unfold editProfile
    cases hfc : finalCategoryOf category newCategory with
    | none => rfl
    | some fc => exact updateById_map_eq store uid _ _ (fun a => rfl)
  · exact updateById_map_eq store uid _ _ (fun a => rfl)
  · by_cases hv : visitorName = "" ∨ comment = "" ∨ trimJS visitorName = ""
        ∨ trimJS comment = ""
    · simp [submitReview, hv]
    · simp only [submitReview, if_neg hv]
      cases hfind : findById store pid with
      | none => rfl
      | some p =>
        by_cases hrole : p.role ≠ "provider"
        · simp [hrole]
        · simp only [if_neg hrole]
          exact updateById_map_eq store pid
            (fun a => { a with reviews := a.reviews
              ++ [⟨visitorName, ratingValueOf rating, comment, reviewNow⟩] })
            Account.trialStartDate (fun a => rfl)
  · unfold register
    cases hfc : finalCategoryOf rcategory rnewCategory with
    | none => simp
    | some fc =>
      by_cases hdup : (findByEmail store email).isSome
      · rcases Option.isSome_iff_exists.mp hdup with ⟨b, hb⟩
        simp [hb]
      · rw [Option.not_isSome_iff_eq_none] at hdup
        simp [hdup, List.map_append]

end LocalService
